import Mathlib

/-!
Verification of the Icarus session-scoring and aggregation engine.

Dates and timestamps are modelled as integers: a date is a day number
(days since 1970-01-01, which was a Thursday, so the JS weekday of day
number n is (n + 4) % 7), and a timestamp is a number of milliseconds.
Real-number arithmetic in the source is embedded as exact rational
arithmetic over the literals that appear in the code.
-/

namespace Icarus

/-- Work type of a session: Deep, Shallow, Maintenance, Recovery or Unknown. -/
inductive WorkType where
  | Deep
  | Shallow
  | Maintenance
  | Recovery
  | Unknown
deriving DecidableEq, Repr

/-- Outcome attached to an ended session: the three 1-5 ratings. -/
structure Outcome where
  progress_rating : ℕ
  quality_rating : ℕ
  focus_quality : ℕ
deriving DecidableEq, Repr

/-- After-state captured at session end. -/
structure AfterState where
  energy : ℕ
  stress : ℕ
deriving DecidableEq, Repr

/-- A session record as the dashboard sees it.  `duration_minutes` and
`outcome` are present iff the session has ended; `start_time` is a
timestamp in milliseconds. -/
structure Session where
  start_time : ℤ
  work_type : WorkType
  duration_minutes : Option ℕ
  outcome : Option Outcome
  after : Option AfterState
deriving DecidableEq, Repr

/-- `getSessionScore` from the dashboard and day-inspector views:
an unended session scores 0; an ended one scores
min(100, (progress*2 + focus*1.5 + quality*1) / 22.5 * 100). -/
def getSessionScore (s : Session) : ℚ :=
  match s.outcome with
  | none => 0
  | some o =>
      let score : ℚ :=
        (o.progress_rating : ℚ) * 2 + (o.focus_quality : ℚ) * 1.5
          + (o.quality_rating : ℚ) * 1
      min 100 (score / 22.5 * 100)

/-- A convenient ended session holding only the three ratings. -/
def mkEnded (p f q : ℕ) : Session :=
  { start_time := 0
    work_type := WorkType.Deep
    duration_minutes := some 0
    outcome := some { progress_rating := p, quality_rating := q, focus_quality := f }
    after := none }

/-- Per-date intake record: a water-glass counter and optional
timestamps for the three meals. -/
structure Intake where
  water_count : ℕ
  breakfast_time : Option ℤ
  lunch_time : Option ℤ
  dinner_time : Option ℤ
deriving DecidableEq, Repr

/-- `calculateIntakePoints` (identical in Analytics.svelte, the dashboard
and the day inspector): min(5, floor(water/2)) plus 5 per logged meal,
total capped at 20; a missing intake record contributes 0. -/
def calculateIntakePoints (intake : Option Intake) : ℕ :=
  match intake with
  | none => 0
  | some i =>
      let waterPoints := min 5 (i.water_count / 2)
      let mealsLogged :=
        ([i.breakfast_time, i.lunch_time, i.dinner_time].filter Option.isSome).length
      min 20 (waterPoints + mealsLogged * 5)

/-- `extendedLiveScore` / `extendedDailyScore`:
min(100, base score + intake points). -/
def extendedLiveScore (base : ℚ) (intake : Option Intake) : ℚ :=
  min 100 (base + (calculateIntakePoints intake : ℚ))

/-- `calculateDuration` from the sleep-log form: 0 when either timestamp
is missing, otherwise max(0, floor((end - start) / 1000 / 60)) minutes.
Timestamps are in milliseconds. -/
def calculateDuration (s e : Option ℤ) : ℤ :=
  match s, e with
  | some s, some e => max 0 ⌊((e : ℚ) - (s : ℚ)) / 1000 / 60⌋
  | _, _ => 0

/-- A sleep record, reduced to the fields the scoring code reads. -/
structure Sleep where
  duration_minutes : ℕ
  sleep_quality : ℕ
deriving DecidableEq, Repr

/-- Total deep-work minutes of a day: the `filter work_type Deep` /
`reduce (+ duration_minutes||0)` pipeline used by the day inspector. -/
def deepMins (sessions : List Session) : ℕ :=
  (sessions.filter (fun s => s.work_type = WorkType.Deep)).foldl
    (fun acc s => acc + s.duration_minutes.getD 0) 0

/-- The day's rated sessions: those carrying an outcome. -/
def sessionsWithOutcome (sessions : List Session) : List Session :=
  sessions.filter (fun s => s.outcome.isSome)

/-- `calculateFallbackScore` from the day inspector: the fallback daily
performance index built from an output, an input and an efficiency
component, clamped to at most 100; an empty day with no sleep record
returns 0 immediately. -/
def calculateFallbackScore (sessions : List Session) (sleep : Option Sleep) : ℚ :=
  if sessions = [] ∧ sleep = none then 0
  else
    let outputScore : ℚ := min 60 ((deepMins sessions / 5 : ℕ) : ℚ)
    let inputScore : ℚ :=
      match sleep with
      | none => 0
      | some sl =>
          (if sl.duration_minutes ≥ 420 then (10 : ℚ)
           else if sl.duration_minutes ≥ 360 then 5 else 0)
            + (if sl.sleep_quality ≥ 4 then (10 : ℚ) else 0)
    let rated := sessionsWithOutcome sessions
    let effScore : ℚ :=
      if rated.length = 0 then 0
      else
        let avgFocus : ℚ :=
          (rated.foldl
              (fun acc s => acc + ((s.outcome.map Outcome.focus_quality).getD 0 : ℚ)) 0)
            / (rated.length : ℚ)
        ((⌊avgFocus * 4⌋ : ℤ) : ℚ)
    min 100 (outputScore + inputScore + effScore)

/-- The specified output component of the daily index:
min(60, floor(total_deep_work_minutes / 5)). -/
def specOutputComponent (sessions : List Session) : ℚ :=
  min 60 ((deepMins sessions / 5 : ℕ) : ℚ)

/-- The specified input component of the daily index: +10 if sleep
duration is at least 420 minutes, else +5 if at least 360, plus an
independent +10 if sleep quality is at least 4; no sleep record
contributes 0. -/
def specInputComponent (sleep : Option Sleep) : ℚ :=
  match sleep with
  | none => 0
  | some sl =>
      (if sl.duration_minutes ≥ 420 then (10 : ℚ)
       else if sl.duration_minutes ≥ 360 then 5 else 0)
        + (if sl.sleep_quality ≥ 4 then (10 : ℚ) else 0)

/-- Arithmetic mean of focus quality over the day's rated sessions. -/
def avgFocusQuality (sessions : List Session) : ℚ :=
  ((sessionsWithOutcome sessions).map
      (fun s => ((s.outcome.map Outcome.focus_quality).getD 0 : ℚ))).sum
    / ((sessionsWithOutcome sessions).length : ℚ)

/-- The specified efficiency component of the daily index:
floor(average focus quality over rated sessions * 4), and 0 when no
session is rated. -/
def specEfficiencyComponent (sessions : List Session) : ℚ :=
  if (sessionsWithOutcome sessions).length = 0 then 0
  else ((⌊avgFocusQuality sessions * 4⌋ : ℤ) : ℚ)

/-- The daily performance index exactly as the claim states it: the sum
of the three components, clamped to at most 100. -/
def specDailyIndex (sessions : List Session) (sleep : Option Sleep) : ℚ :=
  min 100
    (specOutputComponent sessions + specInputComponent sleep
      + specEfficiencyComponent sessions)

/-- JS `Math.round`: round half toward positive infinity,
i.e. floor(x + 1/2). -/
def jsRound (x : ℚ) : ℤ :=
  ⌊x + 1 / 2⌋

/-- Body of the `sessions.forEach` accumulation in
`calculateSystemLoad`: unended sessions are skipped, then Deep adds
duration*1.0, Shallow adds duration*0.3, Recovery subtracts
duration*0.5. -/
def loadStep (acc : ℚ) (s : Session) : ℚ :=
  match s.outcome with
  | none => acc
  | some _ =>
      let d : ℚ := (s.duration_minutes.getD 0 : ℚ)
      match s.work_type with
      | WorkType.Deep => acc + d * 1
      | WorkType.Shallow => acc + d * 0.3
      | WorkType.Recovery => acc - d * 0.5
      | _ => acc

/-- `calculateSystemLoad` from the dashboard header: accumulate the
load minutes over the day's sessions and report
max(0, min(100, round(loadMinutes / 240 * 100))). -/
def calculateSystemLoad (sessions : List Session) : ℤ :=
  let loadMinutes : ℚ := sessions.foldl loadStep 0
  max 0 (min 100 (jsRound (loadMinutes / 240 * 100)))

/-- The day's load contribution of one session as the claim states it:
duration*1.0 for Deep, duration*0.3 for Shallow, duration*(-0.5) for
Recovery, 0 otherwise, with a missing duration counting as 0. -/
def loadContribution (s : Session) : ℚ :=
  let d : ℚ := (s.duration_minutes.getD 0 : ℚ)
  match s.work_type with
  | WorkType.Deep => d * 1
  | WorkType.Shallow => d * 0.3
  | WorkType.Recovery => d * (-0.5)
  | _ => 0

/-- JS `Date.prototype.getDay` on a day number (days since 1970-01-01,
a Thursday): 0 = Sunday .. 6 = Saturday. -/
def jsGetDay (n : ℤ) : ℤ :=
  (n + 4) % 7

/-- `mondayOfWeek` from the range pickers: shift the date by
(day == 0 ? -6 : 1) - day, where day is the JS weekday. -/
def mondayOfWeek (d : ℤ) : ℤ :=
  let day := jsGetDay d
  let diff := (if day = 0 then -6 else 1) - day
  d + diff

/-- The `while (startDate.getDay() !== 0) startDate.setDate(... - 1)`
loop of CalendarHeatmap, with explicit fuel (seven steps always
suffice to reach a Sunday). -/
def backToSunday : ℕ → ℤ → ℤ
  | 0, d => d
  | fuel + 1, d => if jsGetDay d = 0 then d else backToSunday fuel (d - 1)

/-- Anchor of the 53x7 calendar grid: today minus 364 days, walked back
to the previous Sunday. -/
def heatmapStart (today : ℤ) : ℤ :=
  backToSunday 7 (today - 364)

/-- Date of the cell in week column `w`, day row `d` of the grid:
the loop visits consecutive dates column by column. -/
def cellDate (today : ℤ) (w d : ℕ) : ℤ :=
  heatmapStart today + 7 * (w : ℤ) + (d : ℤ)

/-- The `inFuture` flag of a grid cell: its date is strictly after
today. -/
def cellInFuture (today : ℤ) (w d : ℕ) : Bool :=
  today < cellDate today w d

/-- The heatmap's two metrics. -/
inductive HeatmapType where
  | performance
  | sleep
deriving DecidableEq, Repr

/-- `getColor` from CalendarHeatmap, on a cell's `inFuture` flag and
looked-up value. -/
def getColor (ty : HeatmapType) (inFuture : Bool) (value : Option ℚ) : String :=
  if inFuture then "bg-transparent border border-zinc-900/50"
  else
    match value with
    | none => "bg-zinc-900/50"
    | some v =>
        match ty with
        | HeatmapType.performance =>
            if v = 0 then "bg-zinc-900/50"
            else if v < 30 then "bg-red-900/50 border border-red-900"
            else if v < 60 then "bg-emerald-900/60"
            else if v < 80 then "bg-emerald-600"
            else "bg-emerald-400 shadow-[0_0_8px_rgba(52,211,153,0.4)]"
        | HeatmapType.sleep =>
            if v = 0 then "bg-zinc-900/50"
            else if v < 300 then "bg-red-600"
            else if v < 420 then "bg-orange-500"
            else "bg-violet-500"

/-- A row of the sleep-vs-deep-work series. -/
structure SvdRow where
  date : ℤ
  sleep_minutes : Option ℕ
  deep_minutes : ℕ
deriving DecidableEq, Repr

/-- Modelled from the spec: the backend `/api/sleep-vs-deepwork`
aggregation is not among the observed sources (only its two renderers
are); per the spec it returns, for each date in the requested range,
the pair (sleep minutes or absent, deep-work minutes that day),
ordered by date ascending, with a date lacking a sleep record carrying
null rather than 0. -/
def sleepVsDeepworkSeries (lo hi : ℤ) (sleepOn : ℤ → Option ℕ) (deepOn : ℤ → ℕ) :
    List SvdRow :=
  (List.range (hi + 1 - lo).toNat).map
    (fun (i : ℕ) =>
      { date := lo + (i : ℤ)
        sleep_minutes := sleepOn (lo + (i : ℤ))
        deep_minutes := deepOn (lo + (i : ℤ)) })

/-- `String.padStart(4, " ")`. -/
def padStart4 (s : String) : String :=
  if s.length ≥ 4 then s else String.mk (List.replicate (4 - s.length) ' ') ++ s

/-- The sleep column of the textual sleep-vs-deepwork table:
`row.sleep_minutes == null ? "  -" : String(row.sleep_minutes).padStart(4, " ")`. -/
def renderSleepText (m : Option ℕ) : String :=
  match m with
  | none => "  -"
  | some n => padStart4 (toString n)

/-- The sleep line of the Analytics.svelte chart tooltip:
`Sleep: {day.sleep_minutes || 0}m` (JS `||` maps both null and 0 to 0). -/
def analyticsSleepTooltip (m : Option ℕ) : String :=
  "Sleep: " ++ toString (m.getD 0) ++ "m"

/-- Whether the Analytics.svelte chart draws a sleep dot for a day:
`{#if day.sleep_minutes}` — JS truthiness, so 0 draws nothing. -/
def analyticsShowsSleepDot (m : Option ℕ) : Bool :=
  match m with
  | none => false
  | some n => n ≠ 0

/-- The start-form model: the fields `prefillBioState` and
`activateTask` write. -/
structure NewSession where
  domain : String
  project_name : String
  activity_description : String
  work_type : String
  energy_before : ℕ
  stress_before : ℕ
deriving DecidableEq, Repr

/-- The dashboard's `lastCompleted` predicate: the session has both an
outcome and an after-state. -/
def isLastCompleted (s : Session) : Bool :=
  s.outcome.isSome && s.after.isSome

/-- `lastCompleted = todaySessions.find(s => s.outcome && s.after)`,
where `todaySessions` is kept sorted by start time descending. -/
def lastCompleted (todaySessions : List Session) : Option Session :=
  todaySessions.find? isLastCompleted

/-- `prefillBioState`: copy the last completed session's after-energy
and after-stress into the form's before-energy and before-stress. -/
def prefillBioState (todaySessions : List Session) (ns : NewSession) : NewSession :=
  match lastCompleted todaySessions with
  | some lc =>
      match lc.after with
      | some a => { ns with energy_before := a.energy, stress_before := a.stress }
      | none => ns
  | none => ns

/-- A queued task: context fields only. -/
structure Task where
  domain : String
  project_name : String
  activity_description : String
  work_type : String
deriving DecidableEq, Repr

/-- `activateTask`: prefill the bio state, then copy the task's context
into the form (leaving the prefilled before-state untouched). -/
def activateTask (todaySessions : List Session) (ns : NewSession) (task : Task) :
    NewSession :=
  let ns1 := prefillBioState todaySessions ns
  { ns1 with
      domain := task.domain
      project_name := task.project_name
      activity_description := task.activity_description
      work_type := task.work_type }

/-- The three meals of the intake panel. -/
inductive Meal where
  | breakfast
  | lunch
  | dinner
deriving DecidableEq, Repr

/-- The pending confirmation of the Biological Engine panel. -/
inductive ConfirmMode where
  | waterAdd
  | waterRemove
  | mealAdd (m : Meal)
deriving DecidableEq, Repr

/-- UI state of the Biological Engine panel. -/
structure PanelState where
  intake : Intake
  confirmMode : Option ConfirmMode
deriving DecidableEq, Repr

/-- Read a meal's logged time. -/
def mealTime (i : Intake) : Meal → Option ℤ
  | Meal.breakfast => i.breakfast_time
  | Meal.lunch => i.lunch_time
  | Meal.dinner => i.dinner_time

/-- Record a meal's logged time. -/
def setMealTime (i : Intake) (m : Meal) (t : ℤ) : Intake :=
  match m with
  | Meal.breakfast => { i with breakfast_time := some t }
  | Meal.lunch => { i with lunch_time := some t }
  | Meal.dinner => { i with dinner_time := some t }

/-- User interactions on the Biological Engine panel. -/
inductive PanelEvent where
  | requestWater
  | requestRemoveWater
  | requestMeal (m : Meal)
  | cancel
  | confirm (now : ℤ)
deriving DecidableEq, Repr

/-- `requestWater` / `requestRemoveWater` / `requestMeal` /
cancel-button / `confirmAction` from BiologicalState.svelte. -/
def panelStep (st : PanelState) (ev : PanelEvent) : PanelState :=
  match ev with
  | PanelEvent.requestWater =>
      if st.intake.water_count ≥ 8 then st
      else { st with confirmMode := some ConfirmMode.waterAdd }
  | PanelEvent.requestRemoveWater =>
      if st.intake.water_count ≤ 0 then st
      else { st with confirmMode := some ConfirmMode.waterRemove }
  | PanelEvent.requestMeal m =>
      if (mealTime st.intake m).isSome then st
      else { st with confirmMode := some (ConfirmMode.mealAdd m) }
  | PanelEvent.cancel => { st with confirmMode := none }
  | PanelEvent.confirm now =>
      match st.confirmMode with
      | none => st
      | some ConfirmMode.waterAdd =>
          { intake := { st.intake with water_count := st.intake.water_count + 1 }
            confirmMode := none }
      | some ConfirmMode.waterRemove =>
          { intake := { st.intake with water_count := st.intake.water_count - 1 }
            confirmMode := none }
      | some (ConfirmMode.mealAdd m) =>
          { intake := setMealTime st.intake m now
            confirmMode := none }

/-- Run a sequence of panel interactions. -/
def panelRun (st : PanelState) (evs : List PanelEvent) : PanelState :=
  evs.foldl panelStep st

/-- Fresh panel state: empty intake, no pending confirmation. -/
def initialPanelState : PanelState :=
  { intake :=
      { water_count := 0, breakfast_time := none, lunch_time := none, dinner_time := none }
    confirmMode := none }

/-- Folding an additive step function is summing the mapped list. -/
theorem foldl_add_eq (f : Session → ℚ) :
    ∀ (l : List Session) (a : ℚ),
      l.foldl (fun acc s => acc + f s) a = a + (l.map f).sum
  | [], a => by simp
  | x :: xs, a => by
      simp only [List.foldl_cons, List.map_cons, List.sum_cons, foldl_add_eq f xs]
      ring

/-- C1: for every ended session with ratings p, f, q (each 1-5), the
per-session score is min(100, (p*2 + f*1.5 + q*1) / 22.5 * 100); in
particular p = f = q = 5 scores exactly 100 and p = f = q = 1 scores
4.5 / 22.5 * 100 = 20. -/
theorem getSessionScore_formula (p f q : ℕ)
    (hp : 1 ≤ p ∧ p ≤ 5) (hf : 1 ≤ f ∧ f ≤ 5) (hq : 1 ≤ q ∧ q ≤ 5) :
    getSessionScore (mkEnded p f q)
        = min 100 (((p : ℚ) * 2 + (f : ℚ) * 1.5 + (q : ℚ) * 1) / 22.5 * 100)
      ∧ getSessionScore (mkEnded 5 5 5) = 100
      ∧ getSessionScore (mkEnded 1 1 1) = 20 := by
  refine ⟨rfl, ?_, ?_⟩ <;> norm_num [getSessionScore, mkEnded]

/-- Witness for C1 at p = 3, f = 4, q = 2. -/
theorem getSessionScore_formula_witness :
    ((1 ≤ 3 ∧ 3 ≤ 5) ∧ (1 ≤ 4 ∧ 4 ≤ 5) ∧ (1 ≤ 2 ∧ 2 ≤ 5))
      ∧ (getSessionScore (mkEnded 3 4 2)
            = min 100 (((3 : ℚ) * 2 + (4 : ℚ) * 1.5 + (2 : ℚ) * 1) / 22.5 * 100)
          ∧ getSessionScore (mkEnded 5 5 5) = 100
          ∧ getSessionScore (mkEnded 1 1 1) = 20) :=
  ⟨⟨⟨by decide, by decide⟩, ⟨by decide, by decide⟩, ⟨by decide, by decide⟩⟩,
    getSessionScore_formula 3 4 2 ⟨by decide, by decide⟩ ⟨by decide, by decide⟩
      ⟨by decide, by decide⟩⟩

/-- C3: the intake bonus is min(5, floor(water/2)) plus 5 per logged
meal, capped at 20; 10 glasses with all three meals yields exactly 20;
and the extended score min(100, base + bonus) never exceeds 100. -/
theorem calculateIntakePoints_spec (i : Intake) (base : ℚ) (intake : Option Intake) :
    calculateIntakePoints (some i)
        = min 20 (min 5 (i.water_count / 2)
            + 5 * ([i.breakfast_time, i.lunch_time, i.dinner_time].filter
                Option.isSome).length)
      ∧ calculateIntakePoints
          (some { water_count := 10, breakfast_time := some 8,
                  lunch_time := some 13, dinner_time := some 19 }) = 20
      ∧ extendedLiveScore base intake
          = min 100 (base + (calculateIntakePoints intake : ℚ))
      ∧ extendedLiveScore base intake ≤ 100 := by
  refine ⟨?_, by decide, rfl, min_le_left _ _⟩
  simp only [calculateIntakePoints]
  omega

/-- C8: the week-start helper always lands on a Monday at most six days
before its input: a Sunday maps to the Monday six days earlier, and a
date with JS weekday w in 1..6 is shifted back by w - 1 days. -/
theorem mondayOfWeek_spec (d : ℤ) :
    jsGetDay (mondayOfWeek d) = 1
      ∧ mondayOfWeek d ≤ d
      ∧ d - mondayOfWeek d ≤ 6
      ∧ mondayOfWeek d = d - (if jsGetDay d = 0 then 6 else jsGetDay d - 1) := by
  refine ⟨?_, ?_, ?_, ?_⟩ <;>
    · simp only [mondayOfWeek, jsGetDay]
      split_ifs <;> omega

/-- C9: the sleep duration is the timestamp difference floored to whole
minutes and clamped to non-negative, so a wake time at or before the
bed time yields 0. -/
theorem calculateDuration_spec (s e s2 e2 : ℤ) (h : e2 ≤ s2) :
    calculateDuration (some s) (some e) = max 0 ⌊((e : ℚ) - (s : ℚ)) / 60000⌋
      ∧ 0 ≤ calculateDuration (some s) (some e)
      ∧ calculateDuration (some s2) (some e2) = 0 := by
  refine ⟨?_, le_max_left _ _, ?_⟩
  · show max 0 ⌊((e : ℚ) - (s : ℚ)) / 1000 / 60⌋ = _
    rw [div_div]
    norm_num
  · show max 0 ⌊((e2 : ℚ) - (s2 : ℚ)) / 1000 / 60⌋ = 0
    have hq : ((e2 : ℚ) - (s2 : ℚ)) / 1000 / 60 ≤ 0 := by
      have h0 : ((e2 : ℚ) - (s2 : ℚ)) ≤ 0 := by
        rw [sub_nonpos]
        exact_mod_cast h
      have h1 : ((e2 : ℚ) - (s2 : ℚ)) / 1000 ≤ 0 :=
        div_nonpos_iff.mpr (Or.inr ⟨h0, by norm_num⟩)
      exact div_nonpos_iff.mpr (Or.inr ⟨h1, by norm_num⟩)
    exact max_eq_left (Int.floor_nonpos hq)

/-- C2: the fallback daily performance index equals the specified sum
of output, input and efficiency components clamped to at most 100, and
a day with no sessions and no sleep record yields 0 rather than an
error. -/
theorem calculateFallbackScore_spec (sessions : List Session) (sleep : Option Sleep) :
    calculateFallbackScore sessions sleep = specDailyIndex sessions sleep
      ∧ calculateFallbackScore [] none = 0
      ∧ calculateFallbackScore sessions sleep ≤ 100 := by
  have hmain : ∀ (l : List Session) (sl : Option Sleep),
      calculateFallbackScore l sl = specDailyIndex l sl := by
    intro l sl
    by_cases hguard : l = [] ∧ sl = none
    · obtain ⟨h1, h2⟩ := hguard
      subst h1; subst h2
      simp [calculateFallbackScore, specDailyIndex, specOutputComponent,
        specInputComponent, specEfficiencyComponent, deepMins, sessionsWithOutcome]
    · have hfold := foldl_add_eq
        (fun s => ((s.outcome.map Outcome.focus_quality).getD 0 : ℚ))
        (sessionsWithOutcome l) 0
      rw [zero_add] at hfold
      simp only [calculateFallbackScore, specDailyIndex, specOutputComponent,
        specInputComponent, specEfficiencyComponent, avgFocusQuality, if_neg hguard,
        hfold]
  refine ⟨hmain sessions sleep, by simp [calculateFallbackScore], ?_⟩
  rw [hmain sessions sleep]
  simp only [specDailyIndex]
  exact min_le_left _ _

/-- One load-accumulation step adds exactly the claim's per-session
contribution, for session records in which a missing outcome implies a
missing duration (a session's duration exists only once it has ended). -/
theorem loadStep_eq (a : ℚ) (s : Session)
    (hs : s.outcome = none → s.duration_minutes = none) :
    loadStep a s = a + loadContribution s := by
  obtain ⟨st, wt, dm, oc, af⟩ := s
  rcases oc with _ | o
  · have hd : dm = none := hs rfl
    subst hd
    cases wt <;> simp [loadStep, loadContribution]
  · cases wt <;> (simp [loadStep, loadContribution]; try ring)

/-- The load fold is the sum of the per-session contributions. -/
theorem loadFold_eq :
    ∀ (l : List Session),
      (∀ s ∈ l, s.outcome = none → s.duration_minutes = none) →
      ∀ a : ℚ, l.foldl loadStep a = a + (l.map loadContribution).sum
  | [], _, a => by simp
  | x :: xs, h, a => by
      simp only [List.foldl_cons, List.map_cons, List.sum_cons]
      rw [loadStep_eq a x (h x (List.mem_cons_self x xs)),
        loadFold_eq xs (fun s hs => h s (List.mem_cons_of_mem x hs))]
      ring

/-- C5: the system load is the per-work-type weighted minute total,
divided by 240, scaled to percent, rounded, and clamped to [0, 100];
240 accumulated Deep minutes report exactly 100, and the result never
goes below 0. -/
theorem calculateSystemLoad_spec (sessions : List Session)
    (h : ∀ s ∈ sessions, s.outcome = none → s.duration_minutes = none) :
    calculateSystemLoad sessions
        = max 0 (min 100 (jsRound ((sessions.map loadContribution).sum / 240 * 100)))
      ∧ 0 ≤ calculateSystemLoad sessions
      ∧ calculateSystemLoad sessions ≤ 100
      ∧ calculateSystemLoad
          [{ start_time := 0, work_type := WorkType.Deep, duration_minutes := some 240,
             outcome := some { progress_rating := 4, quality_rating := 4,
                               focus_quality := 4 },
             after := none }] = 100 := by
  have hmain : calculateSystemLoad sessions
      = max 0 (min 100 (jsRound ((sessions.map loadContribution).sum / 240 * 100))) := by
    simp only [calculateSystemLoad]
    rw [loadFold_eq sessions h 0, zero_add]
  refine ⟨hmain, ?_, ?_, by norm_num [calculateSystemLoad, loadStep, jsRound]⟩
  · simp only [calculateSystemLoad]
    exact le_max_left _ _
  · rw [hmain]
    exact max_le (by norm_num) (min_le_left _ _)

/-- Witness for C5 on a one-session day (a rated 100-minute Shallow
session). -/
theorem calculateSystemLoad_spec_witness :
    (∀ s ∈ [{ start_time := 0, work_type := WorkType.Shallow,
              duration_minutes := some 100,
              outcome := some { progress_rating := 3, quality_rating := 3,
                                focus_quality := 3 },
              after := none : Session }],
        s.outcome = none → s.duration_minutes = none)
      ∧ (calculateSystemLoad
            [{ start_time := 0, work_type := WorkType.Shallow,
               duration_minutes := some 100,
               outcome := some { progress_rating := 3, quality_rating := 3,
                                 focus_quality := 3 },
               after := none }]
            = max 0 (min 100 (jsRound
                (([{ start_time := 0, work_type := WorkType.Shallow,
                     duration_minutes := some 100,
                     outcome := some { progress_rating := 3, quality_rating := 3,
                                       focus_quality := 3 },
                     after := none : Session }].map loadContribution).sum / 240 * 100)))
          ∧ 0 ≤ calculateSystemLoad
              [{ start_time := 0, work_type := WorkType.Shallow,
                 duration_minutes := some 100,
                 outcome := some { progress_rating := 3, quality_rating := 3,
                                   focus_quality := 3 },
                 after := none }]
          ∧ calculateSystemLoad
              [{ start_time := 0, work_type := WorkType.Shallow,
                 duration_minutes := some 100,
                 outcome := some { progress_rating := 3, quality_rating := 3,
                                   focus_quality := 3 },
                 after := none }] ≤ 100
          ∧ calculateSystemLoad
              [{ start_time := 0, work_type := WorkType.Deep,
                 duration_minutes := some 240,
                 outcome := some { progress_rating := 4, quality_rating := 4,
                                   focus_quality := 4 },
                 after := none }] = 100) :=
  ⟨by decide, calculateSystemLoad_spec _ (by decide)⟩

/-- With enough fuel, the Sunday-alignment loop lands on the weekday-0
day at most six days back. -/
theorem backToSunday_eq :
    ∀ (fuel : ℕ) (d : ℤ), jsGetDay d < fuel →
      backToSunday fuel d = d - jsGetDay d := by
  intro fuel
  induction fuel with
  | zero =>
      intro d h
      exfalso
      have h0 : 0 ≤ jsGetDay d := by
        simp only [jsGetDay]
        omega
      omega
  | succ n ih =>
      intro d h
      rw [backToSunday]
      by_cases h0 : jsGetDay d = 0
      · rw [if_pos h0, h0]
        omega
      · rw [if_neg h0, ih (d - 1) ?_]
        · simp only [jsGetDay] at h0 ⊢
          omega
        · simp only [jsGetDay] at h0 h ⊢
          omega

/-- The grid anchor is today minus 364 days, minus that day's JS
weekday. -/
theorem heatmapStart_eq (today : ℤ) :
    heatmapStart today = today - 364 - jsGetDay (today - 364) := by
  rw [heatmapStart, backToSunday_eq 7 (today - 364)]
  simp only [jsGetDay]
  omega

/-- C4 counterexample: for today = day 1 (a Friday), the grid cell in
column 0, row 0 is a valid cell (0 < 53, 0 < 7) whose date is more
than 364 days before today, so such a date does appear in the grid. -/
theorem calendarGrid_old_date_cex :
    (0 : ℕ) < 53 ∧ (0 : ℕ) < 7 ∧ jsGetDay 1 ≠ 0 ∧ cellDate 1 0 0 < 1 - 364 := by
  refine ⟨by norm_num, by norm_num, by decide, ?_⟩
  rw [cellDate, heatmapStart_eq]
  decide

/-- C4 (amended): the grid anchor is the most recent Sunday on or
before 364 days ago; no cell date is more than 370 days before today
(and none more than 364 days before when today is a Sunday); each cell
maps to one calendar date; and a cell dated strictly after today is
flagged not-yet-occurred and coloured distinctly from a past cell with
no data. -/
theorem calendarGrid_spec (today : ℤ) (w d w2 d2 : ℕ)
    (hw : w < 53) (hd : d < 7) (hw2 : w2 < 53) (hd2 : d2 < 7) :
    jsGetDay (heatmapStart today) = 0
      ∧ heatmapStart today ≤ today - 364
      ∧ today - 364 - heatmapStart today < 7
      ∧ today - 370 ≤ cellDate today w d
      ∧ (jsGetDay today = 0 → today - 364 ≤ cellDate today w d)
      ∧ (cellDate today w d = cellDate today w2 d2 → w = w2 ∧ d = d2)
      ∧ (cellInFuture today w d = true ↔ today < cellDate today w d)
      ∧ (∀ (ty : HeatmapType) (v : Option ℚ), getColor ty true v ≠ getColor ty false none) := by
  have hs := heatmapStart_eq today
  refine ⟨?_, ?_, ?_, ?_, ?_, ?_, ?_, ?_⟩
  · rw [hs]
    simp only [jsGetDay]
    omega
  · rw [hs]
    simp only [jsGetDay]
    omega
  · rw [hs]
    simp only [jsGetDay]
    omega
  · rw [cellDate, hs]
    simp only [jsGetDay]
    omega
  · intro h0
    rw [cellDate, hs]
    simp only [jsGetDay] at h0 ⊢
    omega
  · rw [cellDate, cellDate]
    intro heq
    constructor <;> omega
  · rw [cellInFuture]
    exact decide_eq_true_iff
  · intro ty v
    cases ty <;> simp [getColor]

/-- Witness for C4 (amended) at today = 10, cells (2, 3) and (5, 4). -/
theorem calendarGrid_spec_witness :
    ((2 : ℕ) < 53 ∧ (3 : ℕ) < 7 ∧ (5 : ℕ) < 53 ∧ (4 : ℕ) < 7)
      ∧ (jsGetDay (heatmapStart 10) = 0
          ∧ heatmapStart 10 ≤ 10 - 364
          ∧ 10 - 364 - heatmapStart 10 < 7
          ∧ 10 - 370 ≤ cellDate 10 2 3
          ∧ (jsGetDay 10 = 0 → 10 - 364 ≤ cellDate 10 2 3)
          ∧ (cellDate 10 2 3 = cellDate 10 5 4 → 2 = 5 ∧ 3 = 4)
          ∧ (cellInFuture 10 2 3 = true ↔ 10 < cellDate 10 2 3)
          ∧ (∀ (ty : HeatmapType) (v : Option ℚ),
              getColor ty true v ≠ getColor ty false none)) :=
  ⟨⟨by decide, by decide, by decide, by decide⟩,
    calendarGrid_spec 10 2 3 5 4 (by decide) (by decide) (by decide) (by decide)⟩

/-- C6 counterexample: in the Analytics.svelte chart, a day with no
sleep record is rendered exactly like a day with a recorded sleep of
zero minutes: the tooltip lines coincide and neither shows a sleep
dot. -/
theorem analyticsSleepZero_cex :
    analyticsSleepTooltip none = analyticsSleepTooltip (some 0)
      ∧ analyticsShowsSleepDot none = analyticsShowsSleepDot (some 0) :=
  ⟨rfl, rfl⟩

/-- C6 (amended): the series carries one row per date in range in
ascending date order with the recorded per-date values, and the
textual renderer distinguishes an absent sleep record from a zero
sleep, while the Analytics.svelte chart renders the two identically. -/
theorem sleepVsDeepwork_spec (lo hi : ℤ) (sleepOn : ℤ → Option ℕ) (deepOn : ℤ → ℕ) :
    List.Pairwise (fun r1 r2 : SvdRow => r1.date < r2.date)
        (sleepVsDeepworkSeries lo hi sleepOn deepOn)
      ∧ (∀ r ∈ sleepVsDeepworkSeries lo hi sleepOn deepOn,
          lo ≤ r.date ∧ r.date ≤ hi
            ∧ r.sleep_minutes = sleepOn r.date ∧ r.deep_minutes = deepOn r.date)
      ∧ renderSleepText none = "  -"
      ∧ renderSleepText (some 0) = "   0"
      ∧ renderSleepText none ≠ renderSleepText (some 0)
      ∧ analyticsSleepTooltip none = analyticsSleepTooltip (some 0) := by
  refine ⟨?_, ?_, rfl, by decide, by decide, rfl⟩
  · rw [sleepVsDeepworkSeries, List.pairwise_map]
    exact (List.pairwise_lt_range _).imp
      (fun {i j} hij => by
        show lo + (i : ℤ) < lo + (j : ℤ)
        omega)
  · intro r hr
    rw [sleepVsDeepworkSeries] at hr
    obtain ⟨i, hir, rfl⟩ := List.mem_map.mp hr
    have hi2 := List.mem_range.mp hir
    refine ⟨?_, ?_, rfl, rfl⟩
    · show lo ≤ lo + (i : ℤ)
      omega
    · show lo + (i : ℤ) ≤ hi
      omega

/-- `activateTask` leaves the prefilled before-state untouched. -/
theorem activateTask_before (l : List Session) (ns : NewSession) (t : Task) :
    (activateTask l ns t).energy_before = (prefillBioState l ns).energy_before
      ∧ (activateTask l ns t).stress_before = (prefillBioState l ns).stress_before :=
  ⟨rfl, rfl⟩

/-- On a descending-start-time-sorted list, `find?` returns the
completed session with the greatest start time. -/
theorem lastCompleted_core :
    ∀ (l : List Session),
      List.Pairwise (fun a b => b.start_time ≤ a.start_time) l →
      (∃ s ∈ l, isLastCompleted s = true) →
      ∃ s a, s ∈ l ∧ s.outcome.isSome = true ∧ s.after = some a
        ∧ (∀ t ∈ l, isLastCompleted t = true → t.start_time ≤ s.start_time)
        ∧ lastCompleted l = some s := by
  intro l
  induction l with
  | nil =>
      rintro _ ⟨s, hs, _⟩
      exact absurd hs (List.not_mem_nil s)
  | cons x xs ih =>
      intro hsort hex
      by_cases hx : isLastCompleted x = true
      · have hx2 := hx
        simp only [isLastCompleted, Bool.and_eq_true] at hx2
        obtain ⟨ho, hafter⟩ := hx2
        obtain ⟨a, ha⟩ := Option.isSome_iff_exists.mp hafter
        refine ⟨x, a, List.mem_cons_self x xs, ho, ha, ?_, ?_⟩
        · intro t ht _
          rcases List.mem_cons.mp ht with rfl | h2
          · exact le_refl _
          · exact (List.pairwise_cons.mp hsort).1 t h2
        · rw [lastCompleted, List.find?_cons_of_pos _ hx]
      · have hex2 : ∃ s ∈ xs, isLastCompleted s = true := by
          obtain ⟨s, hs, hcs⟩ := hex
          rcases List.mem_cons.mp hs with rfl | h2
          · exact absurd hcs hx
          · exact ⟨s, h2, hcs⟩
        obtain ⟨s, a, hmem, ho, ha, hmax, hfind⟩ :=
          ih (List.pairwise_cons.mp hsort).2 hex2
        refine ⟨s, a, List.mem_cons_of_mem x hmem, ho, ha, ?_, ?_⟩
        · intro t ht hct
          rcases List.mem_cons.mp ht with rfl | h2
          · exact absurd hct hx
          · exact hmax t h2 hct
        · rw [lastCompleted, List.find?_cons_of_neg _ (by simpa using hx)]
          exact hfind

/-- C7: on the descending-sorted list of today's sessions containing a
completed session with after-state, opening the start form prefills
the form's before-energy and before-stress from the after-state of the
most recently started completed session, and activating a queued task
does the same. -/
theorem prefillBioState_spec (l : List Session) (ns : NewSession)
    (hsort : List.Pairwise (fun a b => b.start_time ≤ a.start_time) l)
    (hex : ∃ s ∈ l, isLastCompleted s = true) :
    ∃ s a, s ∈ l ∧ s.outcome.isSome = true ∧ s.after = some a
      ∧ (∀ t ∈ l, isLastCompleted t = true → t.start_time ≤ s.start_time)
      ∧ (prefillBioState l ns).energy_before = a.energy
      ∧ (prefillBioState l ns).stress_before = a.stress
      ∧ (∀ task : Task, (activateTask l ns task).energy_before = a.energy
          ∧ (activateTask l ns task).stress_before = a.stress) := by
  obtain ⟨s, a, hmem, ho, ha, hmax, hfind⟩ := lastCompleted_core l hsort hex
  have hpre : prefillBioState l ns
      = { ns with energy_before := a.energy, stress_before := a.stress } := by
    simp only [prefillBioState, hfind, ha]
  exact ⟨s, a, hmem, ho, ha, hmax, by rw [hpre], by rw [hpre],
    fun task =>
      ⟨by rw [(activateTask_before l ns task).1, hpre],
        by rw [(activateTask_before l ns task).2, hpre]⟩⟩

/-- Sample completed sessions in descending start-time order, for the
continuity witness. -/
def sampleToday : List Session :=
  [{ start_time := 100, work_type := WorkType.Deep, duration_minutes := some 30,
     outcome := some { progress_rating := 4, quality_rating := 4, focus_quality := 4 },
     after := some { energy := 6, stress := 4 } },
   { start_time := 50, work_type := WorkType.Deep, duration_minutes := some 20,
     outcome := some { progress_rating := 3, quality_rating := 3, focus_quality := 3 },
     after := some { energy := 8, stress := 2 } }]

/-- Sample fresh start form. -/
def sampleForm : NewSession :=
  { domain := "Work", project_name := "", activity_description := "",
    work_type := "Deep", energy_before := 7, stress_before := 3 }

/-- Witness for C7 on a two-session day. -/
theorem prefillBioState_spec_witness :
    (List.Pairwise (fun a b => b.start_time ≤ a.start_time) sampleToday
        ∧ ∃ s ∈ sampleToday, isLastCompleted s = true)
      ∧ (∃ s a, s ∈ sampleToday ∧ s.outcome.isSome = true ∧ s.after = some a
          ∧ (∀ t ∈ sampleToday, isLastCompleted t = true → t.start_time ≤ s.start_time)
          ∧ (prefillBioState sampleToday sampleForm).energy_before = a.energy
          ∧ (prefillBioState sampleToday sampleForm).stress_before = a.stress
          ∧ (∀ task : Task,
              (activateTask sampleToday sampleForm task).energy_before = a.energy
                ∧ (activateTask sampleToday sampleForm task).stress_before = a.stress)) :=
  ⟨⟨by decide, by decide⟩,
    prefillBioState_spec sampleToday sampleForm (by decide) (by decide)⟩

/-- The panel's water invariant: the counter is at most 8, a pending
add-confirmation implies it is below 8, and a pending
remove-confirmation implies it is at least 1. -/
def PanelInv (st : PanelState) : Prop :=
  st.intake.water_count ≤ 8
    ∧ (st.confirmMode = some ConfirmMode.waterAdd → st.intake.water_count < 8)
    ∧ (st.confirmMode = some ConfirmMode.waterRemove → 1 ≤ st.intake.water_count)

/-- Logging a meal never touches the water counter. -/
theorem setMealTime_water_count (i : Intake) (m : Meal) (t : ℤ) :
    (setMealTime i m t).water_count = i.water_count := by
  cases m <;> rfl

/-- Each panel interaction preserves the water invariant. -/
theorem panelStep_inv (st : PanelState) (ev : PanelEvent) (h : PanelInv st) :
    PanelInv (panelStep st ev) := by
  obtain ⟨h1, h2, h3⟩ := h
  cases ev with
  | requestWater =>
      simp only [panelStep]
      split_ifs with hc
      · exact ⟨h1, h2, h3⟩
      · exact ⟨h1, fun _ => by show st.intake.water_count < 8; omega,
          fun hm => ConfirmMode.noConfusion (Option.some.inj hm)⟩
  | requestRemoveWater =>
      simp only [panelStep]
      split_ifs with hc
      · exact ⟨h1, h2, h3⟩
      · exact ⟨h1, fun hm => ConfirmMode.noConfusion (Option.some.inj hm),
          fun _ => by show 1 ≤ st.intake.water_count; omega⟩
  | requestMeal m =>
      simp only [panelStep]
      split_ifs with hc
      · exact ⟨h1, h2, h3⟩
      · exact ⟨h1, fun hm => ConfirmMode.noConfusion (Option.some.inj hm),
          fun hm => ConfirmMode.noConfusion (Option.some.inj hm)⟩
  | cancel =>
      exact ⟨h1, fun hm => Option.noConfusion hm, fun hm => Option.noConfusion hm⟩
  | confirm now =>
      rcases hm : st.confirmMode with _ | cm
      · simp only [panelStep, hm]
        exact ⟨h1, h2, h3⟩
      · cases cm with
        | waterAdd =>
            simp only [panelStep, hm]
            have hlt := h2 hm
            exact ⟨by show st.intake.water_count + 1 ≤ 8; omega,
              fun hmm => Option.noConfusion hmm, fun hmm => Option.noConfusion hmm⟩
        | waterRemove =>
            simp only [panelStep, hm]
            exact ⟨by show st.intake.water_count - 1 ≤ 8; omega,
              fun hmm => Option.noConfusion hmm, fun hmm => Option.noConfusion hmm⟩
        | mealAdd m =>
            simp only [panelStep, hm]
            refine ⟨?_, fun hmm => Option.noConfusion hmm,
              fun hmm => Option.noConfusion hmm⟩
            show (setMealTime st.intake m now).water_count ≤ 8
            rw [setMealTime_water_count]
            exact h1

/-- Any sequence of panel interactions preserves the water invariant. -/
theorem panelRun_inv :
    ∀ (evs : List PanelEvent) (st : PanelState),
      PanelInv st → PanelInv (panelRun st evs)
  | [], _, h => h
  | ev :: evs, st, h => panelRun_inv evs (panelStep st ev) (panelStep_inv st ev h)

/-- C10: starting from a panel state with at most 8 glasses and no
pending confirmation, the water counter never exceeds 8 under any
sequence of interactions; an add request with 8 or more glasses is
refused; a confirmed add increments the counter by exactly 1; and the
water sub-bonus of any reachable state is at most 4 points. -/
theorem waterPanel_spec (st : PanelState) (evs : List PanelEvent) (now : ℤ)
    (h8 : st.intake.water_count ≤ 8) (hmode : st.confirmMode = none) :
    (panelRun st evs).intake.water_count ≤ 8
      ∧ (8 ≤ st.intake.water_count → panelStep st PanelEvent.requestWater = st)
      ∧ (∀ st2 : PanelState, st2.confirmMode = some ConfirmMode.waterAdd →
          (panelStep st2 (PanelEvent.confirm now)).intake.water_count
            = st2.intake.water_count + 1)
      ∧ min 5 ((panelRun st evs).intake.water_count / 2) ≤ 4 := by
  have hinv : PanelInv st :=
    ⟨h8, fun hm => Option.noConfusion (hmode ▸ hm),
      fun hm => Option.noConfusion (hmode ▸ hm)⟩
  have hrun := panelRun_inv evs st hinv
  refine ⟨hrun.1, ?_, ?_, ?_⟩
  · intro hge
    simp only [panelStep]
    rw [if_pos hge]
  · intro st2 hm2
    simp only [panelStep, hm2]
  · have hle := hrun.1
    omega

/-- Witness for C10: two add-confirm rounds from a fresh panel. -/
theorem waterPanel_spec_witness :
    (initialPanelState.intake.water_count ≤ 8
        ∧ initialPanelState.confirmMode = none)
      ∧ ((panelRun initialPanelState
            [PanelEvent.requestWater, PanelEvent.confirm 0,
             PanelEvent.requestWater, PanelEvent.confirm 0]).intake.water_count ≤ 8
          ∧ (8 ≤ initialPanelState.intake.water_count →
              panelStep initialPanelState PanelEvent.requestWater = initialPanelState)
          ∧ (∀ st2 : PanelState, st2.confirmMode = some ConfirmMode.waterAdd →
              (panelStep st2 (PanelEvent.confirm 0)).intake.water_count
                = st2.intake.water_count + 1)
          ∧ min 5 ((panelRun initialPanelState
              [PanelEvent.requestWater, PanelEvent.confirm 0,
               PanelEvent.requestWater, PanelEvent.confirm 0]).intake.water_count / 2)
              ≤ 4) :=
  ⟨⟨by decide, rfl⟩,
    waterPanel_spec initialPanelState
      [PanelEvent.requestWater, PanelEvent.confirm 0,
       PanelEvent.requestWater, PanelEvent.confirm 0] 0 (by decide) rfl⟩

/-- Witness for C9 at (s, e) = (0, 150000) and (s2, e2) = (150000, 0). -/
theorem calculateDuration_spec_witness :
    (0 : ℤ) ≤ 150000
      ∧ (calculateDuration (some 0) (some 150000)
            = max 0 ⌊((150000 : ℚ) - (0 : ℚ)) / 60000⌋
          ∧ 0 ≤ calculateDuration (some 0) (some 150000)
          ∧ calculateDuration (some 150000) (some 0) = 0) :=
  ⟨by decide, calculateDuration_spec 0 150000 150000 0 (by decide)⟩

end Icarus
